import Mathlib

/-!
# WebWorkerObserver (shell/renderer/web_worker_observer.cc)

A shallow embedding of the worker-thread observer that attaches a Node.js
environment to a web worker context.

The observer only forwards lifecycle callbacks to its two owned objects and to
the embedding runtimes, so the embedding is a state-passing model of one worker
thread: the thread-local slot, the observers alive on the heap, the installed
tracing agent, and the log of every call the code makes into the runtimes.
Accessors that only read (uv_loop(), uv_env(), isolate_data(), isolate(),
process_object(), GetIsolate(), GetAgent(), ...) are reads of the model and are
not logged.  What the runtimes answer is a parameter (Host).
-/

namespace electron

/-! ## Data model -/

/-- A node::Environment as far as this file reads it: its identity and the
accessors isolate() and process_object(). -/
structure Environment where
  id : Nat
  isolate : Nat
  process_object : Nat
deriving DecidableEq, Repr

/-- The blink::ExecutionContext of a worker context, with the two predicates the
file asks of it. -/
structure ExecutionContext where
  IsServiceWorkerGlobalScope : Bool
  IsSharedWorkerGlobalScope : Bool
deriving DecidableEq, Repr

/-- A v8::Local<v8::Context>: identity, GetIsolate() and the execution context
that blink::ExecutionContext::From yields for it. -/
structure Context where
  id : Nat
  GetIsolate : Nat
  execution_context : ExecutionContext
deriving DecidableEq, Repr

/-- NodeBindings::BrowserEnvironment. -/
inductive BrowserEnvironment where
  | kBrowser
  | kRenderer
  | kUtility
  | kWorker
deriving DecidableEq, Repr

/-- The v8::MicrotasksPolicy enumeration. -/
inductive MicrotasksPolicy where
  | kExplicit
  | kScoped
  | kAuto
deriving DecidableEq, Repr

/-- The v8::MicrotasksScope::Type enumeration. -/
inductive MicrotasksScopeType where
  | kRunMicrotasks
  | kDoNotRunMicrotasks
deriving DecidableEq, Repr

/-- Calls made into the runtimes (node, NodeBindings, ElectronBindings, v8, gin).
Calls on an owned object carry the address of the observer that owns it. -/
inductive Call where
  | NodeBindings_Create (owner : Nat) (kind : BrowserEnvironment)
  | ElectronBindings_new (owner : Nat) (uv_loop : Nat)
  | Context_Scope_enter (context : Context)
  | MicrotasksScope_enter (isolate : Nat) (type : MicrotasksScopeType)
  | PrepareEmbedThread (owner : Nat)
  | CreateAgent
  | SetAgent (agent : Nat)
  | InitializeContext (context : Context)
  | CreateEnvironment (owner : Nat) (context : Context)
  | BindTo (owner : Nat) (isolate : Nat) (process_object : Nat)
  | LoadEnvironment (owner : Nat) (env : Environment)
  | set_uv_env (owner : Nat) (env : Environment)
  | StartPolling (owner : Nat)
  | MicrotasksScope_exit (isolate : Nat)
  | Context_Scope_exit (context : Context)
  | EmitEvent (isolate : Nat) (process_object : Nat) (name : String)
  | SetMicrotasksPolicy (isolate : Nat) (policy : MicrotasksPolicy)
  | FreeEnvironment (env : Environment)
  | FreeIsolateData (isolate_data : Option Nat)
  | ElectronBindings_delete (owner : Nat)
  | NodeBindings_delete (owner : Nat)
deriving DecidableEq, Repr

/-- The state of a NodeBindings object that this file reads or writes: the loop
behind uv_loop(), the environment pointer behind set_uv_env()/uv_env() and the
pointer behind isolate_data(); none is nullptr. Of the NodeBindings methods called
here only set_uv_env writes uv_env, and only CreateEnvironment, which installs
the isolate data it creates, writes isolate_data. -/
structure NodeBindings where
  uv_loop : Nat
  uv_env : Option Environment
  isolate_data : Option Nat
deriving DecidableEq, Repr

/-- An ElectronBindings object: it only remembers the loop it was built from. -/
structure ElectronBindings where
  uv_loop : Nat
deriving DecidableEq, Repr

/-- The data members of WebWorkerObserver. -/
structure WebWorkerObserver where
  has_node_integration_ : Bool
  node_bindings_ : NodeBindings
  electron_bindings_ : ElectronBindings
deriving DecidableEq, Repr

/-- The owned members of the class that have a destructor of their own. -/
inductive Member where
  | node_bindings_
  | electron_bindings_
deriving DecidableEq, Repr

/-- Modelled from the spec: the class declaration (web_worker_observer.h) is not
among the sources, so the declaration order of the two owned members, which
fixes the order of their construction and (reversed) of their implicit
destruction, follows the spec's "construct two owned objects, destroy them in
reverse order" and the order of the constructor's initialiser list. -/
def member_declaration_order : List Member :=
  [Member.node_bindings_, Member.electron_bindings_]

/-- Why a run stopped without returning. -/
inductive Abort where
  | invalid_this
  | check_failed
  | dcheck_failed
  | null_dereference
deriving DecidableEq, Repr

/-- One worker thread: the pointer in lazy_tls for this thread (none is
nullptr), the observers alive on the heap by address, the agent installed in
node::tracing::TraceEventHelper, and the calls made so far. -/
structure ThreadState where
  lazy_tls : Option Nat
  heap : List (Nat × WebWorkerObserver)
  agent : Option Nat
  calls : List Call
deriving DecidableEq, Repr

/-- What the embedding runtimes and the build answer.  The in-class initialiser
of has_node_integration_ lives in the absent header and is a parameter, and so
is whether DCHECKs are compiled in. -/
structure Host where
  has_node_integration_default : Bool
  dcheck_is_on : Bool
  NodeBindings_Create : BrowserEnvironment → NodeBindings
  CreateAgent : Nat
  InitializeContext : Context → Bool
  CreateEnvironment : Context → Environment
  CreateIsolateData : Context → Nat
  Environment_GetCurrent : Context → Option Environment
  GetCurrentDepth : Nat → Nat

/-- The outcome of a member function: the state on return, or the reason of the
abort together with the state reached. -/
abbrev Run := Except (Abort × ThreadState) ThreadState

/-! ## Heap and log helpers -/

/-- The observer at address p, if one is alive there. -/
def lookup (p : Nat) : List (Nat × WebWorkerObserver) → Option WebWorkerObserver
  | [] => none
  | (q, o) :: rest => if q = p then some o else lookup p rest

/-- Overwrite the observer at address p. -/
def store (p : Nat) (o : WebWorkerObserver) :
    List (Nat × WebWorkerObserver) → List (Nat × WebWorkerObserver)
  | [] => []
  | (q, old) :: rest => if q = p then (q, o) :: rest else (q, old) :: store p o rest

/-- Release the memory at address p. -/
def free (p : Nat) (heap : List (Nat × WebWorkerObserver)) :
    List (Nat × WebWorkerObserver) :=
  heap.filter (fun e => decide (e.1 ≠ p))

/-- The address operator new hands out: non-null and not among the live ones. -/
def new_address (heap : List (Nat × WebWorkerObserver)) : Nat :=
  (heap.map Prod.fst).foldr max 0 + 1

/-- Append calls to the log. -/
def log (s : ThreadState) (cs : List Call) : ThreadState :=
  { s with calls := s.calls ++ cs }

/-- The state a run ends in, returned or aborted. -/
def Run.state : Run → ThreadState
  | Except.ok s => s
  | Except.error (_, s) => s

/-- The calls made between two states of the same thread. -/
def issued (before after : ThreadState) : List Call :=
  after.calls.drop before.calls.length

/-- Every occurrence of b in the list has an occurrence of a somewhere in front
of it. -/
def Precedes (a b : Call) (t : List Call) : Prop :=
  ∀ pre post, t = pre ++ b :: post → a ∈ pre

/-- A left-to-right scan deciding Precedes: a is met before any b is. -/
def precedes (a b : Call) : List Call → Bool
  | [] => true
  | c :: t => if c = b then false else if c = a then true else precedes a b t

/-- A scan deciding Before: behind no b is there an a. -/
def before (a b : Call) : List Call → Bool
  | [] => true
  | c :: t => (if c = b then !(t.contains a) else true) && before a b t

/-! ## The member functions -/

/-- NodeBindings::Create(kind): the bindings object the host builds for this kind
of environment. -/
def NodeBindings.Create (h : Host) (kind : BrowserEnvironment) : NodeBindings :=
  h.NodeBindings_Create kind

/-- WebWorkerObserver::WebWorkerObserver() run on the memory at this: the
initialiser list builds node_bindings_ and then electron_bindings_ from its loop,
the body registers this in the thread-local slot. -/
def WebWorkerObserver.ctor (h : Host) (this : Nat) (s : ThreadState) : ThreadState :=
  let node_bindings := NodeBindings.Create h BrowserEnvironment.kWorker
  let s := log s [Call.NodeBindings_Create this BrowserEnvironment.kWorker]
  let electron_bindings : ElectronBindings := { uv_loop := node_bindings.uv_loop }
  let s := log s [Call.ElectronBindings_new this node_bindings.uv_loop]
  let self : WebWorkerObserver :=
    { has_node_integration_ := h.has_node_integration_default,
      node_bindings_ := node_bindings,
      electron_bindings_ := electron_bindings }
  { s with heap := (this, self) :: s.heap, lazy_tls := some this }

/-- The expression new WebWorkerObserver: allocate, construct, yield the pointer. -/
def WebWorkerObserver.new (h : Host) (s : ThreadState) : Nat × ThreadState :=
  let this := new_address s.heap
  (this, WebWorkerObserver.ctor h this s)

/-- WebWorkerObserver::GetCurrent(). -/
def GetCurrent (h : Host) (s : ThreadState) : Nat × ThreadState :=
  match s.lazy_tls with
  | some self => (self, s)
  | none => WebWorkerObserver.new h s

/-- The destructor call of an owned member. -/
def Member.destroy (this : Nat) : Member → Call
  | Member.node_bindings_ => Call.NodeBindings_delete this
  | Member.electron_bindings_ => Call.ElectronBindings_delete this

/-- What follows the destructor body in delete this: the owned members are
destroyed in reverse declaration order and the memory is released. -/
def destroy_members (this : Nat) (s : ThreadState) : ThreadState :=
  let s := log s (member_declaration_order.reverse.map (Member.destroy this))
  { s with heap := free this s.heap }

/-- The expression delete this: WebWorkerObserver::~WebWorkerObserver() followed
by the destruction of the members. -/
def WebWorkerObserver.delete (h : Host) (this : Nat) (s : ThreadState) : Run :=
  match lookup this s.heap with
  | none => Except.error (Abort.invalid_this, s)
  | some self =>
    let s := { s with lazy_tls := none }
    if !self.has_node_integration_ then
      Except.ok (destroy_members this s)
    else
      match self.node_bindings_.uv_env with
      | none => Except.error (Abort.null_dereference, s)
      | some env =>
        let isolate := env.isolate
        if h.dcheck_is_on && h.GetCurrentDepth isolate != 0 then
          Except.error (Abort.dcheck_failed, s)
        else
          let s := log s [Call.SetMicrotasksPolicy isolate MicrotasksPolicy.kExplicit]
          let s := log s [Call.FreeEnvironment env]
          let s := log s [Call.FreeIsolateData self.node_bindings_.isolate_data]
          Except.ok (destroy_members this s)

/-- WebWorkerObserver::WorkerScriptReadyForEvaluation(worker_context). -/
def WorkerScriptReadyForEvaluation (h : Host) (this : Nat) (worker_context : Context)
    (s : ThreadState) : Run :=
  match lookup this s.heap with
  | none => Except.error (Abort.invalid_this, s)
  | some self =>
    let execution_context := worker_context.execution_context
    let is_service_worker := execution_context.IsServiceWorkerGlobalScope
    let is_shared_worker := execution_context.IsSharedWorkerGlobalScope
    if is_service_worker || is_shared_worker then
      Except.ok { s with heap := store this { self with has_node_integration_ := false } s.heap }
    else
      let s := log s [Call.Context_Scope_enter worker_context]
      let isolate := worker_context.GetIsolate
      let s := log s [Call.MicrotasksScope_enter isolate MicrotasksScopeType.kDoNotRunMicrotasks]
      let s := log s [Call.PrepareEmbedThread this]
      let s :=
        if s.agent.isNone then
          { log s [Call.CreateAgent, Call.SetAgent h.CreateAgent] with
            agent := some h.CreateAgent }
        else s
      let initialized := h.InitializeContext worker_context
      let s := log s [Call.InitializeContext worker_context]
      if !initialized then
        Except.error (Abort.check_failed, s)
      else
        let env := h.CreateEnvironment worker_context
        let node_bindings : NodeBindings :=
          { self.node_bindings_ with isolate_data := some (h.CreateIsolateData worker_context) }
        let s := log s [Call.CreateEnvironment this worker_context]
        let s := log s [Call.BindTo this env.isolate env.process_object]
        let s := log s [Call.LoadEnvironment this env]
        let node_bindings : NodeBindings := { node_bindings with uv_env := some env }
        let s := log s [Call.set_uv_env this env]
        let s := log s [Call.StartPolling this]
        let s := { s with heap := store this { self with node_bindings_ := node_bindings } s.heap }
        let s := log s [Call.MicrotasksScope_exit isolate]
        let s := log s [Call.Context_Scope_exit worker_context]
        Except.ok s

/-- WebWorkerObserver::ContextWillDestroy(context). -/
def ContextWillDestroy (h : Host) (this : Nat) (context : Context) (s : ThreadState) : Run :=
  let s :=
    match h.Environment_GetCurrent context with
    | some env => log s [Call.EmitEvent env.isolate env.process_object "exit"]
    | none => s
  WebWorkerObserver.delete h this s

/-- The calls that set up a Node.js environment in a worker. -/
def Call.is_node_setup : Call → Bool
  | Call.PrepareEmbedThread _ => true
  | Call.SetAgent _ => true
  | Call.InitializeContext _ => true
  | Call.CreateEnvironment _ _ => true
  | Call.BindTo _ _ _ => true
  | Call.LoadEnvironment _ _ => true
  | Call.set_uv_env _ _ => true
  | Call.StartPolling _ => true
  | _ => false

/-- The seven steps by which WorkerScriptReadyForEvaluation embeds Node.js. -/
def Call.is_embedding_step : Call → Bool
  | Call.PrepareEmbedThread _ => true
  | Call.InitializeContext _ => true
  | Call.CreateEnvironment _ _ => true
  | Call.BindTo _ _ _ => true
  | Call.LoadEnvironment _ _ => true
  | Call.set_uv_env _ _ => true
  | Call.StartPolling _ => true
  | _ => false

/-- Event emissions through gin_helper::EmitEvent. -/
def Call.is_EmitEvent : Call → Bool
  | Call.EmitEvent _ _ _ => true
  | _ => false

/-- The calls ContextWillDestroy makes before delete this: the "exit" event on
the process object of the environment of the context, when there is one. -/
def exit_calls (h : Host) (context : Context) : List Call :=
  match h.Environment_GetCurrent context with
  | some env => [Call.EmitEvent env.isolate env.process_object "exit"]
  | none => []

/-! ## Concrete hosts, contexts and states -/

/-- A release-build host on which every runtime call succeeds and no environment
is attached to any context yet. -/
def host_release : Host :=
  { has_node_integration_default := true,
    dcheck_is_on := false,
    NodeBindings_Create := fun _ => { uv_loop := 7, uv_env := none, isolate_data := none },
    CreateAgent := 9,
    InitializeContext := fun _ => true,
    CreateEnvironment := fun c =>
      { id := c.id + 100, isolate := c.GetIsolate, process_object := c.id + 200 },
    CreateIsolateData := fun c => c.id + 300,
    Environment_GetCurrent := fun c =>
      some { id := c.id + 100, isolate := c.GetIsolate, process_object := c.id + 200 },
    GetCurrentDepth := fun _ => 0 }

/-- The same host in a build with DCHECKs, asked to tear down while a
microtasks scope is open. -/
def host_debug_in_scope : Host :=
  { host_release with dcheck_is_on := true, GetCurrentDepth := fun _ => 1 }

/-- The same host, on which node::InitializeContext fails. -/
def host_failing_init : Host :=
  { host_release with InitializeContext := fun _ => false }

/-- A dedicated worker context. -/
def dedicated_worker : Context :=
  { id := 1, GetIsolate := 5,
    execution_context :=
      { IsServiceWorkerGlobalScope := false, IsSharedWorkerGlobalScope := false } }

/-- A service worker context. -/
def service_worker : Context :=
  { id := 2, GetIsolate := 6,
    execution_context :=
      { IsServiceWorkerGlobalScope := true, IsSharedWorkerGlobalScope := false } }

/-- A worker thread on which nothing has happened yet. -/
def thread_start : ThreadState :=
  { lazy_tls := none, heap := [], agent := none, calls := [] }

/-- The thread after its first GetCurrent: one observer, at address 1. -/
def thread_observed : ThreadState :=
  (GetCurrent host_release thread_start).2

/-- The thread after the observer prepared the dedicated worker context. -/
def thread_ready : ThreadState :=
  (WorkerScriptReadyForEvaluation host_release 1 dedicated_worker thread_observed).state

/-- The observer of thread_ready: node integration on, the environment of the
dedicated worker stored. -/
def observer_ready : WebWorkerObserver :=
  { has_node_integration_ := true,
    node_bindings_ :=
      { uv_loop := 7,
        uv_env := some { id := 101, isolate := 5, process_object := 201 },
        isolate_data := some 301 },
    electron_bindings_ := { uv_loop := 7 } }

end electron

namespace electron

/-! ## Helper lemmas -/

theorem le_foldr_max_of_mem (l : List Nat) (a : Nat) (ha : a ∈ l) : a ≤ l.foldr max 0 := by
  induction l with
  | nil => cases ha
  | cons b t ih =>
    simp only [List.mem_cons] at ha
    simp only [List.foldr_cons]
    rcases ha with rfl | ha
    · exact le_max_left _ _
    · exact le_trans (ih ha) (le_max_right _ _)

theorem lookup_eq_none_of_not_mem (p : Nat) (heap : List (Nat × WebWorkerObserver))
    (hp : p ∉ heap.map Prod.fst) : lookup p heap = none := by
  induction heap with
  | nil => rfl
  | cons e t ih =>
    obtain ⟨q, o⟩ := e
    simp only [List.map_cons, List.mem_cons, not_or] at hp
    have hq : ¬ q = p := fun hqp => hp.1 hqp.symm
    simp only [lookup, hq, if_false]
    exact ih hp.2

theorem lookup_new_address (heap : List (Nat × WebWorkerObserver)) :
    lookup (new_address heap) heap = none := by
  apply lookup_eq_none_of_not_mem
  intro hmem
  have hle := le_foldr_max_of_mem _ _ hmem
  unfold new_address at hle
  omega

theorem lookup_free (p : Nat) (heap : List (Nat × WebWorkerObserver)) :
    lookup p (free p heap) = none := by
  apply lookup_eq_none_of_not_mem
  intro hmem
  simp only [free, List.mem_map, List.mem_filter, decide_eq_true_eq] at hmem
  obtain ⟨e, ⟨_, hne⟩, he⟩ := hmem
  exact hne he

theorem lookup_store (p : Nat) (o new_o : WebWorkerObserver)
    (heap : List (Nat × WebWorkerObserver)) (hp : lookup p heap = some o) :
    lookup p (store p new_o heap) = some new_o := by
  induction heap with
  | nil => simp [lookup] at hp
  | cons e t ih =>
    obtain ⟨q, old⟩ := e
    by_cases hq : q = p
    · simp [store, lookup, hq]
    · simp only [lookup, hq, if_false] at hp
      simp only [store, hq, if_false, lookup]
      exact ih hp

theorem issued_of_calls_eq (s s' : ThreadState) (t : List Call)
    (ht : s'.calls = s.calls ++ t) : issued s s' = t := by
  simp [issued, ht]

theorem Precedes_of_precedes (a b : Call) (t : List Call) (ht : precedes a b t = true) :
    Precedes a b t := by
  induction t with
  | nil =>
    intro pre post hsplit
    simp at hsplit
  | cons c t ih =>
    intro pre post hsplit
    by_cases hcb : c = b
    · simp [precedes, hcb] at ht
    · cases pre with
      | nil =>
        simp only [List.nil_append, List.cons.injEq] at hsplit
        exact absurd hsplit.1 hcb
      | cons d pre =>
        simp only [List.cons_append, List.cons.injEq] at hsplit
        obtain ⟨hcd, htl⟩ := hsplit
        by_cases hca : c = a
        · simp [← hcd, hca]
        · simp only [precedes, hcb, hca, if_false] at ht
          exact List.mem_cons_of_mem _ (ih ht pre post htl)

end electron

namespace electron

/-! ## GetCurrent -/

/-- C1: per-thread singleton. When the slot of the thread holds an observer,
GetCurrent returns it and changes nothing (no call is made, no observer is
built). When the slot is empty, GetCurrent returns a non-null address at which
no observer was alive, the heap gains exactly the one observer built there, the
only calls made are the construction of its two owned objects, and the slot
holds the returned address. A second GetCurrent right after the first returns
the same observer and leaves the state as the first left it. -/
theorem GetCurrent_per_thread_singleton (h : Host) (s : ThreadState) :
    (∀ self, s.lazy_tls = some self → GetCurrent h s = (self, s)) ∧
    (s.lazy_tls = none →
      (GetCurrent h s).1 ≠ 0 ∧
      lookup (GetCurrent h s).1 s.heap = none ∧
      (∃ self, (GetCurrent h s).2.heap = ((GetCurrent h s).1, self) :: s.heap) ∧
      (GetCurrent h s).2.heap.length = s.heap.length + 1 ∧
      issued s (GetCurrent h s).2 =
        [Call.NodeBindings_Create (GetCurrent h s).1 BrowserEnvironment.kWorker,
         Call.ElectronBindings_new (GetCurrent h s).1
           (NodeBindings.Create h BrowserEnvironment.kWorker).uv_loop] ∧
      (GetCurrent h s).2.lazy_tls = some (GetCurrent h s).1) ∧
    GetCurrent h (GetCurrent h s).2 = ((GetCurrent h s).1, (GetCurrent h s).2) := by
  refine ⟨?_, ?_, ?_⟩
  · intro self hself
    simp [GetCurrent, hself]
  · intro hnone
    simp only [GetCurrent, hnone, WebWorkerObserver.new, WebWorkerObserver.ctor, log,
      NodeBindings.Create]
    refine ⟨?_, lookup_new_address s.heap, ⟨_, rfl⟩, by simp, ?_, trivial⟩
    · simp [new_address]
    · apply issued_of_calls_eq
      simp
  · cases hslot : s.lazy_tls with
    | some self => simp [GetCurrent, hslot]
    | none =>
      simp [GetCurrent, hslot, WebWorkerObserver.new, WebWorkerObserver.ctor, log]

/-- Witness for C1 on the fresh thread (empty slot) and on the thread after its
first GetCurrent (slot holding the observer at address 1). -/
theorem GetCurrent_per_thread_singleton_witness :
    thread_start.lazy_tls = none ∧
    (GetCurrent host_release thread_start).2.lazy_tls
      = some (GetCurrent host_release thread_start).1 ∧
    thread_observed.lazy_tls = some 1 ∧
    GetCurrent host_release thread_observed = (1, thread_observed) :=
  ⟨rfl,
   ((GetCurrent_per_thread_singleton host_release thread_start).2.1 rfl).2.2.2.2.2,
   rfl,
   (GetCurrent_per_thread_singleton host_release thread_observed).1 1 rfl⟩

/-! ## WorkerScriptReadyForEvaluation -/

/-- C2: no Node.js environment in service or shared workers. For a live
observer and a worker context whose execution context is a service-worker or a
shared-worker global scope, WorkerScriptReadyForEvaluation returns, the observer
then has has_node_integration_ false and is otherwise unchanged, and no call at
all was made in between: in particular none of PrepareEmbedThread, SetAgent,
InitializeContext, CreateEnvironment, BindTo, LoadEnvironment, set_uv_env,
StartPolling. Slot and tracing agent are untouched. -/
theorem WorkerScriptReadyForEvaluation_service_or_shared_worker (h : Host) (s : ThreadState)
    (this : Nat) (self : WebWorkerObserver) (worker_context : Context)
    (hthis : lookup this s.heap = some self)
    (hworker : worker_context.execution_context.IsServiceWorkerGlobalScope = true ∨
      worker_context.execution_context.IsSharedWorkerGlobalScope = true) :
    ∃ s', WorkerScriptReadyForEvaluation h this worker_context s = Except.ok s' ∧
      lookup this s'.heap = some { self with has_node_integration_ := false } ∧
      issued s s' = [] ∧
      (∀ c ∈ issued s s', c.is_node_setup = false) ∧
      s'.calls = s.calls ∧ s'.lazy_tls = s.lazy_tls ∧ s'.agent = s.agent := by
  have hor : (worker_context.execution_context.IsServiceWorkerGlobalScope ||
      worker_context.execution_context.IsSharedWorkerGlobalScope) = true := by
    rcases hworker with hw | hw <;> simp [hw]
  refine ⟨{ s with heap := store this { self with has_node_integration_ := false } s.heap },
    ?_, ?_, ?_, ?_, rfl, rfl, rfl⟩
  · simp [WorkerScriptReadyForEvaluation, hthis, hor]
  · exact lookup_store this self _ s.heap hthis
  · simp [issued]
  · simp [issued]

/-- Witness for C2: the observer of the thread is handed a service worker
context. -/
theorem WorkerScriptReadyForEvaluation_service_or_shared_worker_witness :
    ∃ s', WorkerScriptReadyForEvaluation host_release 1 service_worker thread_observed
        = Except.ok s' ∧
      lookup 1 s'.heap = some
        { has_node_integration_ := false,
          node_bindings_ := { uv_loop := 7, uv_env := none, isolate_data := none },
          electron_bindings_ := { uv_loop := 7 } } ∧
      issued thread_observed s' = [] ∧
      (∀ c ∈ issued thread_observed s', c.is_node_setup = false) ∧
      s'.calls = thread_observed.calls ∧ s'.lazy_tls = thread_observed.lazy_tls ∧
      s'.agent = thread_observed.agent :=
  WorkerScriptReadyForEvaluation_service_or_shared_worker host_release thread_observed 1
    { has_node_integration_ := true,
      node_bindings_ := { uv_loop := 7, uv_env := none, isolate_data := none },
      electron_bindings_ := { uv_loop := 7 } }
    service_worker rfl (Or.inl rfl)

end electron

namespace electron

/-! ## The shapes of a run of delete this -/

theorem delete_without_node_integration (h : Host) (s : ThreadState) (this : Nat)
    (self : WebWorkerObserver) (hthis : lookup this s.heap = some self)
    (hflag : self.has_node_integration_ = false) :
    WebWorkerObserver.delete h this s = Except.ok
      { lazy_tls := none, heap := free this s.heap, agent := s.agent,
        calls := s.calls ++
          [Call.ElectronBindings_delete this, Call.NodeBindings_delete this] } := by
  simp [WebWorkerObserver.delete, hthis, hflag, destroy_members, log,
    member_declaration_order, Member.destroy]

theorem delete_with_node_integration (h : Host) (s : ThreadState) (this : Nat)
    (self : WebWorkerObserver) (env : Environment) (hthis : lookup this s.heap = some self)
    (hflag : self.has_node_integration_ = true)
    (henv : self.node_bindings_.uv_env = some env)
    (hdcheck : (h.dcheck_is_on && h.GetCurrentDepth env.isolate != 0) = false) :
    WebWorkerObserver.delete h this s = Except.ok
      { lazy_tls := none, heap := free this s.heap, agent := s.agent,
        calls := s.calls ++
          [Call.SetMicrotasksPolicy env.isolate MicrotasksPolicy.kExplicit,
           Call.FreeEnvironment env,
           Call.FreeIsolateData self.node_bindings_.isolate_data,
           Call.ElectronBindings_delete this, Call.NodeBindings_delete this] } := by
  simp only [WebWorkerObserver.delete, hthis, hflag, henv, hdcheck, destroy_members, log,
    member_declaration_order, Member.destroy]
  simp [Member.destroy]

/-- Every run of delete this has one of three shapes: it aborts having made no
call, or it returns having only destroyed the two owned objects (no node
integration), or it returns having switched the policy, freed the environment
and its isolate data, and then destroyed the two owned objects. -/
theorem delete_cases (h : Host) (s : ThreadState) (this : Nat) :
    ((∀ s', WebWorkerObserver.delete h this s ≠ Except.ok s') ∧
      issued s (WebWorkerObserver.delete h this s).state = []) ∨
    (∃ self s', lookup this s.heap = some self ∧ self.has_node_integration_ = false ∧
      WebWorkerObserver.delete h this s = Except.ok s' ∧
      s'.lazy_tls = none ∧ s'.heap = free this s.heap ∧
      issued s s' = [Call.ElectronBindings_delete this, Call.NodeBindings_delete this]) ∨
    (∃ self env s', lookup this s.heap = some self ∧ self.has_node_integration_ = true ∧
      self.node_bindings_.uv_env = some env ∧
      (h.dcheck_is_on && h.GetCurrentDepth env.isolate != 0) = false ∧
      WebWorkerObserver.delete h this s = Except.ok s' ∧
      s'.lazy_tls = none ∧ s'.heap = free this s.heap ∧
      issued s s' =
        [Call.SetMicrotasksPolicy env.isolate MicrotasksPolicy.kExplicit,
         Call.FreeEnvironment env,
         Call.FreeIsolateData self.node_bindings_.isolate_data,
         Call.ElectronBindings_delete this, Call.NodeBindings_delete this]) := by
  cases hthis : lookup this s.heap with
  | none =>
    left
    simp [WebWorkerObserver.delete, hthis, Run.state, issued]
  | some self =>
    cases hflag : self.has_node_integration_ with
    | false =>
      right; left
      refine ⟨self, _, rfl, hflag, delete_without_node_integration h s this self hthis hflag,
        rfl, rfl, ?_⟩
      exact issued_of_calls_eq _ _ _ rfl
    | true =>
      cases henv : self.node_bindings_.uv_env with
      | none =>
        left
        simp [WebWorkerObserver.delete, hthis, hflag, henv, Run.state, issued]
      | some env =>
        cases hdcheck : (h.dcheck_is_on && h.GetCurrentDepth env.isolate != 0) with
        | true =>
          left
          simp only [WebWorkerObserver.delete, hthis, hflag, henv, hdcheck]
          simp [Run.state, issued]
        | false =>
          right; right
          refine ⟨self, env, _, rfl, hflag, henv, hdcheck,
            delete_with_node_integration h s this self env hthis hflag henv hdcheck,
            rfl, rfl, ?_⟩
          exact issued_of_calls_eq _ _ _ rfl

theorem dcheck_passes (h : Host) (env : Environment)
    (hdepth : h.dcheck_is_on = true → h.GetCurrentDepth env.isolate = 0) :
    (h.dcheck_is_on && h.GetCurrentDepth env.isolate != 0) = false := by
  cases hon : h.dcheck_is_on with
  | false => simp
  | true => simp [hdepth hon]

end electron

namespace electron

/-! ## The shapes of a run of WorkerScriptReadyForEvaluation -/

theorem ready_sets_up_node (h : Host) (s : ThreadState) (this : Nat)
    (self : WebWorkerObserver) (worker_context : Context)
    (hthis : lookup this s.heap = some self)
    (hservice : worker_context.execution_context.IsServiceWorkerGlobalScope = false)
    (hshared : worker_context.execution_context.IsSharedWorkerGlobalScope = false)
    (hinit : h.InitializeContext worker_context = true) :
    WorkerScriptReadyForEvaluation h this worker_context s = Except.ok
      { lazy_tls := s.lazy_tls,
        heap := store this
          { self with node_bindings_ :=
              { uv_loop := self.node_bindings_.uv_loop,
                uv_env := some (h.CreateEnvironment worker_context),
                isolate_data := some (h.CreateIsolateData worker_context) } } s.heap,
        agent := if s.agent.isNone then some h.CreateAgent else s.agent,
        calls := s.calls ++
          ([Call.Context_Scope_enter worker_context,
            Call.MicrotasksScope_enter worker_context.GetIsolate
              MicrotasksScopeType.kDoNotRunMicrotasks,
            Call.PrepareEmbedThread this] ++
           (if s.agent.isNone then [Call.CreateAgent, Call.SetAgent h.CreateAgent] else []) ++
           [Call.InitializeContext worker_context,
            Call.CreateEnvironment this worker_context,
            Call.BindTo this (h.CreateEnvironment worker_context).isolate
              (h.CreateEnvironment worker_context).process_object,
            Call.LoadEnvironment this (h.CreateEnvironment worker_context),
            Call.set_uv_env this (h.CreateEnvironment worker_context),
            Call.StartPolling this,
            Call.MicrotasksScope_exit worker_context.GetIsolate,
            Call.Context_Scope_exit worker_context]) } := by
  cases hagent : s.agent.isNone <;>
    simp [WorkerScriptReadyForEvaluation, hthis, hservice, hshared, hinit, log, hagent]

theorem ready_check_fails (h : Host) (s : ThreadState) (this : Nat)
    (self : WebWorkerObserver) (worker_context : Context)
    (hthis : lookup this s.heap = some self)
    (hservice : worker_context.execution_context.IsServiceWorkerGlobalScope = false)
    (hshared : worker_context.execution_context.IsSharedWorkerGlobalScope = false)
    (hinit : h.InitializeContext worker_context = false) :
    ∀ s', WorkerScriptReadyForEvaluation h this worker_context s ≠ Except.ok s' := by
  intro s'
  cases hagent : s.agent.isNone <;>
    simp [WorkerScriptReadyForEvaluation, hthis, hservice, hshared, hinit, log, hagent]

/-- When WorkerScriptReadyForEvaluation returns, the observer either lost node
integration (service or shared worker), or holds the environment created for the
context, stored by a set_uv_env call of this run. -/
theorem ready_ok_cases (h : Host) (s s' : ThreadState) (this : Nat) (worker_context : Context)
    (hrun : WorkerScriptReadyForEvaluation h this worker_context s = Except.ok s') :
    ∃ self, lookup this s.heap = some self ∧
      (lookup this s'.heap = some { self with has_node_integration_ := false } ∨
       (lookup this s'.heap = some
          { self with node_bindings_ :=
              { uv_loop := self.node_bindings_.uv_loop,
                uv_env := some (h.CreateEnvironment worker_context),
                isolate_data := some (h.CreateIsolateData worker_context) } } ∧
        Call.set_uv_env this (h.CreateEnvironment worker_context) ∈ issued s s')) := by
  cases hthis : lookup this s.heap with
  | none => simp [WorkerScriptReadyForEvaluation, hthis] at hrun
  | some self =>
    refine ⟨self, rfl, ?_⟩
    cases hservice : worker_context.execution_context.IsServiceWorkerGlobalScope with
    | true =>
      left
      have hok := hrun
      simp only [WorkerScriptReadyForEvaluation, hthis, hservice, Bool.true_or, if_true,
        Except.ok.injEq] at hok
      rw [← hok]
      exact lookup_store this self _ s.heap hthis
    | false =>
      cases hshared : worker_context.execution_context.IsSharedWorkerGlobalScope with
      | true =>
        left
        have hok := hrun
        simp only [WorkerScriptReadyForEvaluation, hthis, hservice, hshared, Bool.or_true,
          if_true, Except.ok.injEq] at hok
        rw [← hok]
        exact lookup_store this self _ s.heap hthis
      | false =>
        cases hinit : h.InitializeContext worker_context with
        | false =>
          exact absurd hrun
            (ready_check_fails h s this self _ hthis hservice hshared hinit s')
        | true =>
          right
          have hok := ready_sets_up_node h s this self _ hthis hservice hshared hinit
          rw [hrun, Except.ok.injEq] at hok
          subst hok
          refine ⟨lookup_store this self _ s.heap hthis, ?_⟩
          rw [issued_of_calls_eq _ _ _ rfl]
          simp

end electron

namespace electron

/-! ## Construction and destruction order -/

end electron

namespace electron

/-! ## Microtasks policy -/

/-- C6: kExplicit before the environment is freed. In every run of delete this
that calls node::FreeEnvironment on an environment, a call
SetMicrotasksPolicy(kExplicit) on the isolate of that very environment comes
earlier in the same run; the observer had node integration and the environment
is the one its node bindings hold as uv_env; and when the state was produced by
a WorkerScriptReadyForEvaluation of this observer, that environment is the one
created for the context and passed to set_uv_env in that run. Such runs exist:
a live observer with node integration that holds an environment is destroyed,
when the depth assertion (if compiled in) passes, by exactly the calls
SetMicrotasksPolicy(kExplicit) on the isolate of the environment,
FreeEnvironment, FreeIsolateData and the destruction of the two owned objects. -/
theorem kExplicit_policy_before_FreeEnvironment (h : Host) (s : ThreadState) (this : Nat) :
    (∀ env, Call.FreeEnvironment env ∈ issued s (WebWorkerObserver.delete h this s).state →
      Precedes (Call.SetMicrotasksPolicy env.isolate MicrotasksPolicy.kExplicit)
        (Call.FreeEnvironment env) (issued s (WebWorkerObserver.delete h this s).state) ∧
      (∃ self, lookup this s.heap = some self ∧ self.has_node_integration_ = true ∧
        self.node_bindings_.uv_env = some env) ∧
      (∀ earlier worker_context,
        WorkerScriptReadyForEvaluation h this worker_context earlier = Except.ok s →
        env = h.CreateEnvironment worker_context ∧
        Call.set_uv_env this env ∈ issued earlier s)) ∧
    (∀ self env, lookup this s.heap = some self → self.has_node_integration_ = true →
      self.node_bindings_.uv_env = some env →
      (h.dcheck_is_on = true → h.GetCurrentDepth env.isolate = 0) →
      ∃ s', WebWorkerObserver.delete h this s = Except.ok s' ∧
        issued s s' =
          [Call.SetMicrotasksPolicy env.isolate MicrotasksPolicy.kExplicit,
           Call.FreeEnvironment env,
           Call.FreeIsolateData self.node_bindings_.isolate_data,
           Call.ElectronBindings_delete this, Call.NodeBindings_delete this]) := by
  refine ⟨?_, ?_⟩
  · intro env hfree
    rcases delete_cases h s this with ⟨_, hnil⟩ | ⟨self, s', _, _, hrun, _, _, hcalls⟩ |
        ⟨self, env2, s', hthis, hflag, henv, _, hrun, _, _, hcalls⟩
    · rw [hnil] at hfree
      cases hfree
    · rw [hrun] at hfree
      simp [Run.state, hcalls] at hfree
    · rw [hrun] at hfree ⊢
      simp only [Run.state, hcalls] at hfree ⊢
      have henv2 : env = env2 := by simpa using hfree
      subst henv2
      refine ⟨Precedes_of_precedes _ _ _ (by simp [precedes]),
        ⟨self, hthis, hflag, henv⟩, ?_⟩
      intro earlier worker_context hready
      obtain ⟨self0, _, hcase | ⟨hstored, hcall⟩⟩ :=
        ready_ok_cases h earlier s this _ hready
      · rw [hthis, Option.some.injEq] at hcase
        rw [hcase] at hflag
        cases hflag
      · rw [hthis, Option.some.injEq] at hstored
        rw [hstored] at henv
        simp only [Option.some.injEq] at henv
        rw [← henv]
        exact ⟨rfl, hcall⟩
  · intro self env hthis hflag henv hdepth
    exact ⟨_, delete_with_node_integration h s this self env hthis hflag henv
      (dcheck_passes h env hdepth), issued_of_calls_eq _ _ _ rfl⟩

/-- Witness for C6: deleting the observer that prepared the dedicated worker frees
the environment created for that worker, after the policy switch on isolate 5. -/
theorem kExplicit_policy_before_FreeEnvironment_witness :
    Call.FreeEnvironment { id := 101, isolate := 5, process_object := 201 }
      ∈ issued thread_ready (WebWorkerObserver.delete host_release 1 thread_ready).state ∧
    Precedes (Call.SetMicrotasksPolicy 5 MicrotasksPolicy.kExplicit)
      (Call.FreeEnvironment { id := 101, isolate := 5, process_object := 201 })
      (issued thread_ready (WebWorkerObserver.delete host_release 1 thread_ready).state) ∧
    WorkerScriptReadyForEvaluation host_release 1 dedicated_worker thread_observed
      = Except.ok thread_ready ∧
    Call.set_uv_env 1 { id := 101, isolate := 5, process_object := 201 }
      ∈ issued thread_observed thread_ready ∧
    (∃ s', WebWorkerObserver.delete host_release 1 thread_ready = Except.ok s' ∧
      issued thread_ready s' =
        [Call.SetMicrotasksPolicy 5 MicrotasksPolicy.kExplicit,
         Call.FreeEnvironment { id := 101, isolate := 5, process_object := 201 },
         Call.FreeIsolateData (some 301),
         Call.ElectronBindings_delete 1, Call.NodeBindings_delete 1]) :=
  have hall := kExplicit_policy_before_FreeEnvironment host_release thread_ready 1
  have hrun := hall.1 { id := 101, isolate := 5, process_object := 201 } (by decide)
  ⟨by decide, hrun.1, rfl, (hrun.2.2 thread_observed dedicated_worker rfl).2,
    hall.2 observer_ready { id := 101, isolate := 5, process_object := 201 } rfl rfl rfl
      (fun _ => rfl)⟩

end electron

namespace electron

/-! ## The order of the embedding steps -/

/-- C5 (amended): for a live observer and a worker context that is neither a
service worker nor a shared worker, and for which node::InitializeContext
returns true, WorkerScriptReadyForEvaluation returns and the calls it made are,
in this order: the context scope and microtasks scope are entered,
PrepareEmbedThread, (CreateAgent and SetAgent, only when no tracing agent is
installed), InitializeContext, CreateEnvironment, BindTo on the isolate and
process object of the created environment, LoadEnvironment, set_uv_env,
StartPolling, and the two scopes are left. The seven embedding steps are thus
issued exactly once each in the stated order, and the environment that is bound,
loaded and then held as uv_env is the one CreateEnvironment returned for the
context. -/
theorem WorkerScriptReadyForEvaluation_embedding_order (h : Host) (s : ThreadState)
    (this : Nat) (self : WebWorkerObserver) (worker_context : Context)
    (hthis : lookup this s.heap = some self)
    (hservice : worker_context.execution_context.IsServiceWorkerGlobalScope = false)
    (hshared : worker_context.execution_context.IsSharedWorkerGlobalScope = false)
    (hinit : h.InitializeContext worker_context = true) :
    ∃ s', WorkerScriptReadyForEvaluation h this worker_context s = Except.ok s' ∧
      issued s s' =
        [Call.Context_Scope_enter worker_context,
         Call.MicrotasksScope_enter worker_context.GetIsolate
           MicrotasksScopeType.kDoNotRunMicrotasks,
         Call.PrepareEmbedThread this] ++
        (if s.agent.isNone then [Call.CreateAgent, Call.SetAgent h.CreateAgent] else []) ++
        [Call.InitializeContext worker_context,
         Call.CreateEnvironment this worker_context,
         Call.BindTo this (h.CreateEnvironment worker_context).isolate
           (h.CreateEnvironment worker_context).process_object,
         Call.LoadEnvironment this (h.CreateEnvironment worker_context),
         Call.set_uv_env this (h.CreateEnvironment worker_context),
         Call.StartPolling this,
         Call.MicrotasksScope_exit worker_context.GetIsolate,
         Call.Context_Scope_exit worker_context] ∧
      (issued s s').filter Call.is_embedding_step =
        [Call.PrepareEmbedThread this,
         Call.InitializeContext worker_context,
         Call.CreateEnvironment this worker_context,
         Call.BindTo this (h.CreateEnvironment worker_context).isolate
           (h.CreateEnvironment worker_context).process_object,
         Call.LoadEnvironment this (h.CreateEnvironment worker_context),
         Call.set_uv_env this (h.CreateEnvironment worker_context),
         Call.StartPolling this] ∧
      (∃ self', lookup this s'.heap = some self' ∧
        self'.node_bindings_.uv_env = some (h.CreateEnvironment worker_context) ∧
        self'.has_node_integration_ = self.has_node_integration_) := by
  refine ⟨_, ready_sets_up_node h s this self worker_context hthis hservice hshared hinit,
    ?_, ?_, ?_⟩
  · exact issued_of_calls_eq _ _ _ rfl
  · rw [issued_of_calls_eq _ _ _ rfl]
    cases s.agent.isNone <;> simp [Call.is_embedding_step]
  · exact ⟨_, lookup_store this self _ s.heap hthis, rfl, rfl⟩

/-- Witness for C5 (amended): the observer of the thread prepares the dedicated
worker on the host where every runtime call succeeds. -/
theorem WorkerScriptReadyForEvaluation_embedding_order_witness :
    ∃ s', WorkerScriptReadyForEvaluation host_release 1 dedicated_worker thread_observed
        = Except.ok s' ∧
      (issued thread_observed s').filter Call.is_embedding_step =
        [Call.PrepareEmbedThread 1,
         Call.InitializeContext dedicated_worker,
         Call.CreateEnvironment 1 dedicated_worker,
         Call.BindTo 1 5 201,
         Call.LoadEnvironment 1 { id := 101, isolate := 5, process_object := 201 },
         Call.set_uv_env 1 { id := 101, isolate := 5, process_object := 201 },
         Call.StartPolling 1] :=
  have hrun := WorkerScriptReadyForEvaluation_embedding_order host_release thread_observed 1
    { has_node_integration_ := true,
      node_bindings_ := { uv_loop := 7, uv_env := none, isolate_data := none },
      electron_bindings_ := { uv_loop := 7 } }
    dedicated_worker rfl rfl rfl rfl
  hrun.elim (fun s' hs' => ⟨s', hs'.1, hs'.2.2.1⟩)

/-- C5 as stated fails: on a host where node::InitializeContext returns false,
the dedicated worker context (neither service nor shared worker) makes
CHECK(initialized) abort the call. The calls made stop at InitializeContext:
CreateEnvironment, BindTo, LoadEnvironment, set_uv_env and StartPolling are
never issued. -/
theorem WorkerScriptReadyForEvaluation_CHECK_counterexample :
    dedicated_worker.execution_context.IsServiceWorkerGlobalScope = false ∧
    dedicated_worker.execution_context.IsSharedWorkerGlobalScope = false ∧
    lookup 1 thread_observed.heap ≠ none ∧
    (∃ s', WorkerScriptReadyForEvaluation host_failing_init 1 dedicated_worker
        thread_observed = Except.error (Abort.check_failed, s') ∧
      issued thread_observed s' =
        [Call.Context_Scope_enter dedicated_worker,
         Call.MicrotasksScope_enter 5 MicrotasksScopeType.kDoNotRunMicrotasks,
         Call.PrepareEmbedThread 1,
         Call.CreateAgent,
         Call.SetAgent 9,
         Call.InitializeContext dedicated_worker] ∧
      (issued thread_observed s').filter Call.is_embedding_step ≠
        [Call.PrepareEmbedThread 1,
         Call.InitializeContext dedicated_worker,
         Call.CreateEnvironment 1 dedicated_worker,
         Call.BindTo 1 5 201,
         Call.LoadEnvironment 1 { id := 101, isolate := 5, process_object := 201 },
         Call.set_uv_env 1 { id := 101, isolate := 5, process_object := 201 },
         Call.StartPolling 1]) :=
  ⟨rfl, rfl, by decide,
    (WorkerScriptReadyForEvaluation host_failing_init 1 dedicated_worker
      thread_observed).state, rfl, by decide, by decide⟩

end electron

namespace electron

/-! ## ContextWillDestroy -/

theorem ContextWillDestroy_eq_delete (h : Host) (s : ThreadState) (this : Nat)
    (context : Context) :
    ContextWillDestroy h this context s
      = WebWorkerObserver.delete h this (log s (exit_calls h context)) := by
  cases hcur : h.Environment_GetCurrent context <;>
    simp [ContextWillDestroy, exit_calls, hcur, log]

theorem exit_calls_filter (h : Host) (context : Context) (t : List Call)
    (ht : t.filter Call.is_EmitEvent = []) :
    (exit_calls h context ++ t).filter Call.is_EmitEvent = exit_calls h context := by
  cases hcur : h.Environment_GetCurrent context <;>
    simp [exit_calls, hcur, ht, Call.is_EmitEvent]

theorem GetCurrent_of_empty_slot (h : Host) (s : ThreadState) (hslot : s.lazy_tls = none) :
    lookup (GetCurrent h s).1 s.heap = none ∧
    (GetCurrent h s).2.lazy_tls = some (GetCurrent h s).1 ∧
    (∃ self, (GetCurrent h s).2.heap = ((GetCurrent h s).1, self) :: s.heap) ∧
    issued s (GetCurrent h s).2 =
      [Call.NodeBindings_Create (GetCurrent h s).1 BrowserEnvironment.kWorker,
       Call.ElectronBindings_new (GetCurrent h s).1
         (NodeBindings.Create h BrowserEnvironment.kWorker).uv_loop] := by
  simp only [GetCurrent, hslot, WebWorkerObserver.new, WebWorkerObserver.ctor, log,
    NodeBindings.Create]
  refine ⟨lookup_new_address s.heap, trivial, ⟨_, rfl⟩, ?_⟩
  apply issued_of_calls_eq
  simp

/-- C4 (amended): for a live observer and every context, ContextWillDestroy
emits "exit" on the process object of the environment of the context exactly
once when node::Environment::GetCurrent yields one and never otherwise, as the
first call of the run, before delete this starts; this holds however the run
ends. When the destructor can complete, that is when has_node_integration_ is
false, or uv_env is non-null and (in a build with DCHECKs) the microtasks depth
of its isolate is 0, the call returns, both owned objects have been destroyed,
the observer is gone from the heap, the slot of the calling thread is empty, and
the next GetCurrent on that thread builds a new observer and registers it. -/
theorem ContextWillDestroy_emits_exit_then_deletes (h : Host) (s : ThreadState) (this : Nat)
    (self : WebWorkerObserver) (context : Context)
    (hthis : lookup this s.heap = some self) :
    ((∀ env, h.Environment_GetCurrent context = some env →
        (issued s (ContextWillDestroy h this context s).state).filter Call.is_EmitEvent
          = [Call.EmitEvent env.isolate env.process_object "exit"] ∧
        (issued s (ContextWillDestroy h this context s).state).head?
          = some (Call.EmitEvent env.isolate env.process_object "exit")) ∧
      (h.Environment_GetCurrent context = none →
        (issued s (ContextWillDestroy h this context s).state).filter Call.is_EmitEvent
          = []) ∧
      (ContextWillDestroy h this context s).state.lazy_tls = none) ∧
    ((self.has_node_integration_ = true →
        ∃ env, self.node_bindings_.uv_env = some env ∧
          (h.dcheck_is_on = true → h.GetCurrentDepth env.isolate = 0)) →
      ∃ s', ContextWillDestroy h this context s = Except.ok s' ∧
        Call.ElectronBindings_delete this ∈ issued s s' ∧
        Call.NodeBindings_delete this ∈ issued s s' ∧
        lookup this s'.heap = none ∧
        s'.lazy_tls = none ∧
        lookup (GetCurrent h s').1 s'.heap = none ∧
        (GetCurrent h s').2.lazy_tls = some (GetCurrent h s').1 ∧
        (∃ fresh, (GetCurrent h s').2.heap = ((GetCurrent h s').1, fresh) :: s'.heap) ∧
        issued s' (GetCurrent h s').2 =
          [Call.NodeBindings_Create (GetCurrent h s').1 BrowserEnvironment.kWorker,
           Call.ElectronBindings_new (GetCurrent h s').1
             (NodeBindings.Create h BrowserEnvironment.kWorker).uv_loop]) := by
  have hsplit : ∀ P : Prop,
      ((issued s (ContextWillDestroy h this context s).state).filter Call.is_EmitEvent
          = exit_calls h context ∧
        (∀ env, h.Environment_GetCurrent context = some env →
          (issued s (ContextWillDestroy h this context s).state).head?
            = some (Call.EmitEvent env.isolate env.process_object "exit")) ∧
        (h.Environment_GetCurrent context = none → exit_calls h context = []) ∧
        (ContextWillDestroy h this context s).state.lazy_tls = none) ∧ P →
      ((∀ env, h.Environment_GetCurrent context = some env →
          (issued s (ContextWillDestroy h this context s).state).filter Call.is_EmitEvent
            = [Call.EmitEvent env.isolate env.process_object "exit"] ∧
          (issued s (ContextWillDestroy h this context s).state).head?
            = some (Call.EmitEvent env.isolate env.process_object "exit")) ∧
        (h.Environment_GetCurrent context = none →
          (issued s (ContextWillDestroy h this context s).state).filter Call.is_EmitEvent
            = []) ∧
        (ContextWillDestroy h this context s).state.lazy_tls = none) ∧ P := by
    rintro P ⟨⟨hfilter, hfirst, hempty, hslot⟩, hP⟩
    refine ⟨⟨?_, ?_, hslot⟩, hP⟩
    · intro env hcur
      refine ⟨?_, hfirst env hcur⟩
      rw [hfilter]
      simp [exit_calls, hcur]
    · intro hcur
      rw [hfilter]
      exact hempty hcur
  apply hsplit
  have hmid : lookup this (log s (exit_calls h context)).heap = some self := hthis
  have hhead : ∀ (t : List Call) (env : Environment),
      h.Environment_GetCurrent context = some env →
      (exit_calls h context ++ t).head?
        = some (Call.EmitEvent env.isolate env.process_object "exit") := by
    intro t env hcur
    simp [exit_calls, hcur]
  have hnone : h.Environment_GetCurrent context = none → exit_calls h context = [] := by
    intro hcur
    simp [exit_calls, hcur]
  rw [ContextWillDestroy_eq_delete]
  cases hflag : self.has_node_integration_ with
  | false =>
    have hrun := delete_without_node_integration h _ this self hmid hflag
    have hcalls := issued_of_calls_eq s
      { lazy_tls := none, heap := free this s.heap, agent := s.agent,
        calls := s.calls ++ (exit_calls h context ++
          [Call.ElectronBindings_delete this, Call.NodeBindings_delete this]) }
      _ rfl
    have hstate : WebWorkerObserver.delete h this (log s (exit_calls h context)) = Except.ok
        { lazy_tls := none, heap := free this s.heap, agent := s.agent,
          calls := s.calls ++ (exit_calls h context ++
            [Call.ElectronBindings_delete this, Call.NodeBindings_delete this]) } := by
      rw [hrun]
      simp [log]
    rw [hstate]
    refine ⟨⟨?_, ?_, hnone, rfl⟩, ?_⟩
    · simp only [Run.state, hcalls]
      exact exit_calls_filter h context _ (by simp [Call.is_EmitEvent])
    · intro env hcur
      simp only [Run.state, hcalls]
      exact hhead _ env hcur
    · intro _
      refine ⟨_, rfl, ?_, ?_, lookup_free this s.heap, rfl, ?_⟩
      · rw [hcalls]; simp
      · rw [hcalls]; simp
      · exact GetCurrent_of_empty_slot h _ rfl
  | true =>
    cases henv : self.node_bindings_.uv_env with
    | none =>
      refine ⟨⟨?_, ?_, hnone, ?_⟩, ?_⟩
      · simp only [WebWorkerObserver.delete, hmid, hflag, henv]
        simp only [Run.state, log]
        rw [issued_of_calls_eq s _ (exit_calls h context) rfl]
        simpa using exit_calls_filter h context [] rfl
      · intro env hcur
        simp only [WebWorkerObserver.delete, hmid, hflag, henv]
        simp only [Run.state, log]
        rw [issued_of_calls_eq s _ (exit_calls h context) rfl]
        simpa using hhead [] env hcur
      · simp [WebWorkerObserver.delete, hmid, hflag, henv, Run.state]
      · intro hpre
        obtain ⟨env, henv2, _⟩ := hpre rfl
        cases henv2
    | some env =>
      cases hdcheck : (h.dcheck_is_on && h.GetCurrentDepth env.isolate != 0) with
      | true =>
        refine ⟨⟨?_, ?_, hnone, ?_⟩, ?_⟩
        · simp only [WebWorkerObserver.delete, hmid, hflag, henv, hdcheck]
          simp only [Run.state, log]
          rw [issued_of_calls_eq s _ (exit_calls h context) rfl]
          simpa using exit_calls_filter h context [] rfl
        · intro env2 hcur
          simp only [WebWorkerObserver.delete, hmid, hflag, henv, hdcheck]
          simp only [Run.state, log]
          rw [issued_of_calls_eq s _ (exit_calls h context) rfl]
          simpa using hhead [] env2 hcur
        · simp only [WebWorkerObserver.delete, hmid, hflag, henv, hdcheck]
          simp [Run.state]
        · intro hpre
          obtain ⟨env2, henv2, hdepth⟩ := hpre rfl
          simp only [Option.some.injEq] at henv2
          subst henv2
          simp only [Bool.and_eq_true, bne_iff_ne, ne_eq] at hdcheck
          exact absurd (hdepth hdcheck.1) hdcheck.2
      | false =>
        have hrun := delete_with_node_integration h _ this self env hmid hflag henv hdcheck
        have hcalls := issued_of_calls_eq s
          { lazy_tls := none, heap := free this s.heap, agent := s.agent,
            calls := s.calls ++ (exit_calls h context ++
              [Call.SetMicrotasksPolicy env.isolate MicrotasksPolicy.kExplicit,
               Call.FreeEnvironment env,
               Call.FreeIsolateData self.node_bindings_.isolate_data,
               Call.ElectronBindings_delete this, Call.NodeBindings_delete this]) }
          _ rfl
        have hstate : WebWorkerObserver.delete h this (log s (exit_calls h context))
            = Except.ok
            { lazy_tls := none, heap := free this s.heap, agent := s.agent,
              calls := s.calls ++ (exit_calls h context ++
                [Call.SetMicrotasksPolicy env.isolate MicrotasksPolicy.kExplicit,
                 Call.FreeEnvironment env,
                 Call.FreeIsolateData self.node_bindings_.isolate_data,
                 Call.ElectronBindings_delete this, Call.NodeBindings_delete this]) } := by
          rw [hrun]
          simp [log]
        rw [hstate]
        refine ⟨⟨?_, ?_, hnone, rfl⟩, ?_⟩
        · simp only [Run.state, hcalls]
          exact exit_calls_filter h context _ (by simp [Call.is_EmitEvent])
        · intro env2 hcur
          simp only [Run.state, hcalls]
          exact hhead _ env2 hcur
        · intro _
          refine ⟨_, rfl, ?_, ?_, lookup_free this s.heap, rfl, ?_⟩
          · rw [hcalls]; simp
          · rw [hcalls]; simp
          · exact GetCurrent_of_empty_slot h _ rfl

/-- Witness for C4 (amended): the observer that prepared the dedicated worker is
told that the context will be destroyed; it has node integration, holds an
environment, and the microtasks depth is 0. -/
theorem ContextWillDestroy_emits_exit_then_deletes_witness :
    lookup 1 thread_ready.heap = some observer_ready ∧
    (issued thread_ready
        (ContextWillDestroy host_release 1 dedicated_worker thread_ready).state).filter
      Call.is_EmitEvent = [Call.EmitEvent 5 201 "exit"] ∧
    ∃ s', ContextWillDestroy host_release 1 dedicated_worker thread_ready = Except.ok s' ∧
      lookup 1 s'.heap = none ∧ s'.lazy_tls = none ∧
      (GetCurrent host_release s').2.lazy_tls = some (GetCurrent host_release s').1 :=
  have hrun := ContextWillDestroy_emits_exit_then_deletes host_release thread_ready 1
    observer_ready dedicated_worker rfl
  ⟨rfl, (hrun.1.1 { id := 101, isolate := 5, process_object := 201 } rfl).1,
    (hrun.2 (fun _ => ⟨{ id := 101, isolate := 5, process_object := 201 }, rfl,
        fun _ => rfl⟩)).elim
      (fun s' hs' => ⟨s', hs'.1, hs'.2.2.2.1, hs'.2.2.2.2.1, hs'.2.2.2.2.2.2.1⟩)⟩

/-- C4 as stated fails: in a build with DCHECKs, when the destruction is asked
for while a microtasks scope is open (depth 1), the observer that prepared the
dedicated worker emits "exit", clears the slot and then aborts on
DCHECK_EQ(GetCurrentDepth(isolate), 0): the call does not return, neither owned
object is destroyed and the observer is still on the heap. The state is the one
this host reaches by GetCurrent and WorkerScriptReadyForEvaluation. -/
theorem ContextWillDestroy_DCHECK_counterexample :
    thread_ready =
      (WorkerScriptReadyForEvaluation host_debug_in_scope
        (GetCurrent host_debug_in_scope thread_start).1 dedicated_worker
        (GetCurrent host_debug_in_scope thread_start).2).state ∧
    (GetCurrent host_debug_in_scope thread_start).1 = 1 ∧
    (∃ s', ContextWillDestroy host_debug_in_scope 1 dedicated_worker thread_ready
        = Except.error (Abort.dcheck_failed, s') ∧
      issued thread_ready s' = [Call.EmitEvent 5 201 "exit"] ∧
      lookup 1 s'.heap = some observer_ready) ∧
    (∀ s', ContextWillDestroy host_debug_in_scope 1 dedicated_worker thread_ready
        ≠ Except.ok s') :=
  ⟨rfl, rfl,
    ⟨(ContextWillDestroy host_debug_in_scope 1 dedicated_worker thread_ready).state,
      rfl, by decide, by decide⟩,
    fun s' hs' => by cases hs'⟩

end electron
